import Mathlib

/-!
Shallow embedding of the durability/failover and statistics subsystems of the
logserver repository, together with proofs checking the natural-language
specification against the embedded code.

Embedded source units:
* `src/utils/logCache.ts` (`LogCache`): the bounded, file-persisted overflow
  queue (`addToCache`, `readCache`, `writeCache`, `getCacheCount`,
  `getCacheInfo`, `processCachedLogs`, `clearCache`).
* `src/controllers/logController.ts` (`createLog`): validation and the
  write-or-enqueue decision procedure.
* `src/utils/databaseHealth.ts` (`DatabaseHealth.checkDatabaseConnection`):
  the health probe state machine, embedded with an explicit event trace.
* `src/services/logStatisticsService.ts` / `apiStatisticsService.ts`:
  the rollup upsert loop (`updateStatistics`) and the time-bucket key
  construction (`getTimeRange`).

File I/O is modelled by passing the parsed queue file content explicitly
(`Option (List CachedLog)`, `none` = file missing or JSON unparsable, exactly
the cases the source's `readCache` catch-handler maps to `[]`).  The byte size
of the serialized JSON document is abstracted as a function parameter
`byteSize : List CachedLog → Nat`, since the source consults the serialized
data only through `Buffer.byteLength`.
-/

namespace LogServer

/-! ## Data model (`src/types/index.ts`) -/

/-- The `extra_data` field of a log record: either a string-encoded JSON
payload or a structured object (modelled as a field list). -/
inductive ExtraData
  | raw (s : String)
  | obj (fields : List (String × String))
deriving DecidableEq

/-- `LogData` from `src/types/index.ts`, after the controller has applied its
defaults (all dimension fields are plain strings there). -/
structure LogData where
  level : String
  log_type : String
  message : String
  service : String
  service_name : String
  service_ip : String
  appid : String
  enterprise_id : String
  user_id : String
  extra_data : ExtraData
  timestamp : String
deriving DecidableEq

/-- A queue entry as written by `LogCache.addToCache`: the log plus the
`_cached_at` / `_cache_id` envelope fields.  `_cache_id` (a generated string
in the source) is modelled as a `Nat`. -/
structure CachedLog where
  log : LogData
  cached_at : String
  cache_id : Nat
deriving DecidableEq

/-! ## OverflowQueue (`LogCache`, src/utils/logCache.ts) -/

/-- `maxCacheSize` field of `LogCache`: maximum number of cached entries. -/
def maxCacheSize : Nat := 10000

/-- `maxFileSize` field of `LogCache`: maximum serialized size, 50MB. -/
def maxFileSize : Nat := 50 * 1024 * 1024

/-- `LogCache.readCache`: returns the parsed file content, or `[]` when the
file is missing or its JSON does not parse (the catch branch). -/
def readCache (file : Option (List CachedLog)) : List CachedLog :=
  file.getD []

/-- String-level variant of `readCache`: the file content as a raw string
(`none` = file missing) together with the JSON parser (`none` = parse error).
Both failure cases fall into the catch branch returning `[]`. -/
def readCacheFile (parseFile : String → Option (List CachedLog))
    (file : Option String) : List CachedLog :=
  (file.bind parseFile).getD []

/-- `LogCache.writeCache`: if the serialized document exceeds `maxFileSize`,
only the newest half of the entries (`logs.slice(Math.floor(logs.length / 2))`)
is persisted; otherwise the full list is persisted.  Returns the persisted
list. -/
def writeCache (byteSize : List CachedLog → Nat) (logs : List CachedLog) :
    List CachedLog :=
  if byteSize logs > maxFileSize then logs.drop (logs.length / 2) else logs

/-- The count-bound step of `LogCache.addToCache`:
`existingCache.splice(0, existingCache.length - this.maxCacheSize)` removes the
oldest `length - maxCacheSize` entries whenever the count exceeds the bound. -/
def countTrim (cache : List CachedLog) : List CachedLog :=
  if cache.length > maxCacheSize then cache.drop (cache.length - maxCacheSize)
  else cache

/-- `LogCache.addToCache`: read the existing cache, append the incoming
records (single or batch, already wrapped with their envelope fields), apply
the count bound, persist via `writeCache`.  Returns the persisted list. -/
def addToCache (byteSize : List CachedLog → Nat)
    (existing incoming : List CachedLog) : List CachedLog :=
  writeCache byteSize (countTrim (existing ++ incoming))

/-- `LogCache.getCacheCount`: length of the parsed cache (0 on read failure). -/
def getCacheCount (parseFile : String → Option (List CachedLog))
    (file : Option String) : Nat :=
  (readCacheFile parseFile file).length

/-- The `count` field of `LogCache.getCacheInfo` (0 on read failure). -/
def getCacheInfoCount (parseFile : String → Option (List CachedLog))
    (file : Option String) : Nat :=
  (readCacheFile parseFile file).length

/-! ## ReconciliationProcessor (`LogCache.processCachedLogs`) -/

/-- Result record of `processCachedLogs`. -/
structure DrainResult where
  processed : Nat
  failed : Nat
  errors : List String
deriving DecidableEq

/-- The mutable state `processCachedLogs` touches: the single-flight flag and
the persisted queue file (`none` = missing/unparsable). -/
structure CacheState where
  isProcessing : Bool
  file : Option (List CachedLog)
deriving DecidableEq

/-- Per-record preparation inside the drain loop: strip the `_cached_at` /
`_cache_id` envelope fields and, when `extra_data` is a string, best-effort
re-parse it (keeping it as-is when parsing fails). -/
def stripCacheFields (parseJson : String → Option (List (String × String)))
    (e : CachedLog) : LogData :=
  match e.log.extra_data with
  | .raw s =>
    match parseJson s with
    | some fields => { e.log with extra_data := .obj fields }
    | none => e.log
  | .obj _ => e.log

/-- The per-record error message pushed on a failed insert. -/
def drainErrMsg (cacheId : Nat) (err : String) : String :=
  "处理缓存日志失败 (ID: " ++ toString cacheId ++ "): " ++ err

/-- Whether the insert function succeeds on a queue entry (the body of the
per-record `try`). -/
def insSucceeds (parseJson : String → Option (List (String × String)))
    (ins : LogData → Except String Unit) (e : CachedLog) : Bool :=
  match ins (stripCacheFields parseJson e) with
  | .ok _ => true
  | .error _ => false

/-- Accumulator of the drain loop. -/
structure DrainAcc where
  processed : Nat
  failed : Nat
  errors : List String
  processedLogs : List CachedLog
deriving DecidableEq

/-- The record-processing loop of `processCachedLogs`.  The source iterates in
batches of 100 and rewrites the queue file after each batch, filtering the full
read against `processedLogs`; the last batch's write therefore determines the
final file, so the loop is embedded flattened, collecting the final counters,
error list and `processedLogs` in iteration order. -/
def drainLoop (parseJson : String → Option (List (String × String)))
    (ins : LogData → Except String Unit) : List CachedLog → DrainAcc
  | [] => ⟨0, 0, [], []⟩
  | e :: rest =>
    let r := drainLoop parseJson ins rest
    match ins (stripCacheFields parseJson e) with
    | .ok _ => ⟨r.processed + 1, r.failed, r.errors, e :: r.processedLogs⟩
    | .error err =>
      ⟨r.processed, r.failed + 1, drainErrMsg e.cache_id err :: r.errors,
        r.processedLogs⟩

/-- `LogCache.processCachedLogs`: single-flight guard, read, per-record loop,
persist the not-yet-processed remainder, and clear the file when nothing
failed. -/
def processCachedLogs (byteSize : List CachedLog → Nat)
    (parseJson : String → Option (List (String × String)))
    (ins : LogData → Except String Unit) (st : CacheState) :
    DrainResult × CacheState :=
  if st.isProcessing then (⟨0, 0, []⟩, st)
  else
    let cachedLogs := readCache st.file
    if cachedLogs.isEmpty then (⟨0, 0, []⟩, ⟨false, st.file⟩)
    else
      let acc := drainLoop parseJson ins cachedLogs
      let remaining := cachedLogs.filter fun e =>
        ! acc.processedLogs.any fun p => p.cache_id == e.cache_id
      let stored := writeCache byteSize remaining
      let finalFile := if acc.failed == 0 then writeCache byteSize [] else stored
      (⟨acc.processed, acc.failed, acc.errors⟩, ⟨false, some finalFile⟩)

/-! ## IngestionCoordinator (`createLog`, src/controllers/logController.ts) -/

/-- The request body of `createLog`, restricted to the fields the controller
reads.  `Option String` models absent (`undefined`) fields; for the purposes
of JS truthiness checks an empty string behaves like an absent field. -/
structure RawBody where
  message : Option String
  level : Option String
  log_type : Option String
  service : Option String
  service_name : Option String
  service_ip : Option String
  appid : Option String
  enterprise_id : Option String
  user_id : Option String
  extra_data : Option ExtraData
  timestamp : Option String
deriving DecidableEq

/-- JS truthiness default for optional string fields: `body.x || dflt`. -/
def orDefault (x : Option String) (dflt : String) : String :=
  match x with
  | none => dflt
  | some s => if s == "" then dflt else s

/-- The `validLevels` list of `createLog`. -/
def validLevels : List String := ["info", "debug", "warn", "error"]

/-- Outcome of the validation prelude of `createLog` (before the health check
and the write decision). -/
inductive ValidationOutcome
  | rejectedEmptyMessage
  | rejectedBadTimestamp
  | accepted (log : LogData)
deriving DecidableEq

/-- The validation and record-construction prelude of `createLog`:
* reject when `!body.message` (absent or empty message);
* reject when a (truthy) timestamp is provided but `DateTime.isValid` fails;
* coerce a missing or out-of-range `level` to `"info"`, apply string defaults
  to the dimension fields, and accept.
`isValidTs` and `toCH` stand for `DateTime.isValid` and
`DateTime.toClickHouseFormat`; `nowTs` is the current-time default. -/
def buildLogData (isValidTs : String → Bool) (toCH : String → String)
    (nowTs : String) (body : RawBody) : ValidationOutcome :=
  if orDefault body.message "" == "" then .rejectedEmptyMessage
  else
    let ts := orDefault body.timestamp ""
    if ts != "" && !(isValidTs ts) then .rejectedBadTimestamp
    else
      let level0 := orDefault body.level "info"
      let level := if validLevels.contains level0 then level0 else "info"
      .accepted
        { level := level
          log_type := orDefault body.log_type "application"
          message := orDefault body.message ""
          service := orDefault body.service "unknown"
          service_name := orDefault body.service_name ""
          service_ip := orDefault body.service_ip ""
          appid := orDefault body.appid ""
          enterprise_id := orDefault body.enterprise_id ""
          user_id := orDefault body.user_id ""
          extra_data := body.extra_data.getD (.obj [])
          timestamp := if ts != "" then toCH ts else nowTs }

/-- The response shapes `createLog` can produce after validation. -/
inductive CreateLogResp
  | stored
  | cached (totalCached : Nat)
  | storeFailed
deriving DecidableEq

/-- What a `createLog` call leaves behind: the response, the persisted overflow
queue, and whether a direct backend insert was attempted. -/
structure CreateLogOutcome where
  resp : CreateLogResp
  queue : List CachedLog
  insertAttempted : Bool
deriving DecidableEq

/-- The write decision of `createLog` after validation succeeded.
`isHealthy` is `DatabaseHealth.getHealthStatus().isHealthy`; `insertOk` states
whether `insertLog` would succeed; `cacheWriteFails` states whether
`addToCache` would throw (queue file unwritable; the file is then unchanged).
`entry` is the validated record wrapped with its envelope fields.
The fire-and-forget `triggerCacheProcessing` after a successful direct write
is not part of the response or the queue mutation and is not modelled. -/
def createLogWrite (byteSize : List CachedLog → Nat)
    (isHealthy insertOk cacheWriteFails : Bool)
    (queue : List CachedLog) (entry : CachedLog) : CreateLogOutcome :=
  if !isHealthy then
    if cacheWriteFails then ⟨.storeFailed, queue, false⟩
    else
      let q := addToCache byteSize queue [entry]
      ⟨.cached q.length, q, false⟩
  else if insertOk then ⟨.stored, queue, true⟩
  else if cacheWriteFails then ⟨.storeFailed, queue, true⟩
  else
    let q := addToCache byteSize queue [entry]
    ⟨.cached q.length, q, true⟩

/-- Full result of `createLog`, including the validation short-circuits.  A
`badRequest` (HTTP 400) records the queue as the early return leaves it and
whether a backend insert was attempted (never, for a rejection). -/
inductive CreateLogResult
  | badRequest (queueAfter : List CachedLog) (insertAttempted : Bool)
  | handled (out : CreateLogOutcome)
deriving DecidableEq

/-- `createLog` end to end: validation, then the write decision.  `wrap` turns
the validated record into its queue entry (envelope fields added by
`addToCache`).  A rejected request returns before the health check: the queue
is untouched and no insert is attempted. -/
def createLog (byteSize : List CachedLog → Nat) (isValidTs : String → Bool)
    (toCH : String → String) (nowTs : String)
    (isHealthy insertOk cacheWriteFails : Bool)
    (wrap : LogData → CachedLog) (queue : List CachedLog) (body : RawBody) :
    CreateLogResult :=
  match buildLogData isValidTs toCH nowTs body with
  | .rejectedEmptyMessage => .badRequest queue false
  | .rejectedBadTimestamp => .badRequest queue false
  | .accepted log =>
    .handled
      (createLogWrite byteSize isHealthy insertOk cacheWriteFails queue
        (wrap log))

/-! ## HealthMonitor (`DatabaseHealth`, src/utils/databaseHealth.ts) -/

/-- Observable actions of `checkDatabaseConnection`, in program order. -/
inductive HealthEvent
  | setHealthy (b : Bool)
  | resetRetryCount
  | recoveredCallback
  | steadyCheck
  | incRetryCount
deriving DecidableEq

/-- Health state of `DatabaseHealth` (the `lastCheckTime` string is omitted). -/
structure HealthState where
  isHealthy : Bool
  retryCount : Nat
deriving DecidableEq

/-- `DatabaseHealth.checkDatabaseConnection` for a completed probe
(`probeOk` = `healthResult.success`), returning the boolean result, the new
state and the trace of observable actions in source order:
on an unhealthy→healthy transition the source first sets `isHealthy = true`
and resets the retry counter, then awaits `processCachedLogsOnReconnect()`
(the recovered callback), then sets `isHealthy = true` again; when already
healthy it awaits `checkAndProcessPendingCache()` (the steady-state hook) and
sets `isHealthy = true`; on a failed probe it clears `isHealthy` if it was set
and increments the retry counter. -/
def checkDatabaseConnection (probeOk : Bool) (st : HealthState) :
    Bool × HealthState × List HealthEvent :=
  if probeOk then
    if !st.isHealthy then
      (true, ⟨true, 0⟩,
        [.setHealthy true, .resetRetryCount, .recoveredCallback,
          .setHealthy true])
    else
      (true, ⟨true, st.retryCount⟩, [.steadyCheck, .setHealthy true])
  else
    if st.isHealthy then
      (false, ⟨false, st.retryCount + 1⟩, [.setHealthy false, .incRetryCount])
    else
      (false, ⟨false, st.retryCount + 1⟩, [.incRetryCount])

/-- The property claimed of the recovery transition: every `setHealthy true`
in the trace is preceded by the recovered callback. -/
def callbackBeforeHealthySet (tr : List HealthEvent) : Prop :=
  ∀ i : Fin tr.length, tr.get i = .setHealthy true →
    ∃ j : Fin tr.length, (j : Nat) < (i : Nat) ∧ tr.get j = .recoveredCallback

instance (tr : List HealthEvent) : Decidable (callbackBeforeHealthySet tr) := by
  unfold callbackBeforeHealthySet; infer_instance

/-! ## RollupStore upsert (`LogStatisticsService.updateStatistics`,
src/services/logStatisticsService.ts lines 84-114) -/

/-- The composite lookup key of a rollup row (`whereConditions`). -/
structure StatKey where
  stat_time : String
  stat_type : String
  log_type : String
  service : String
  level : String
  appid : String
  enterprise_id : String
deriving DecidableEq

/-- One persisted rollup row.  `update_time` is the Sequelize `updatedAt`
timestamp (mapped to the `update_time` column): set on create and refreshed on
every update. -/
structure StatRow where
  key : StatKey
  count : Nat
  update_time : Nat
deriving DecidableEq

/-- One aggregated row from the ClickHouse `GROUP BY` query. -/
structure AggRow where
  log_type : String
  service : String
  level : String
  appid : String
  enterprise_id : String
  count : Nat
deriving DecidableEq

/-- The `whereConditions` built for an aggregated row (the `|| ""` defaults of
the source are absorbed by the plain-`String` fields). -/
def aggKey (statTime statType : String) (r : AggRow) : StatKey :=
  ⟨statTime, statType, r.log_type, r.service, r.level, r.appid,
    r.enterprise_id⟩

/-- `existingRecord.update(...)`: replace the count and refresh `update_time`
on the first row matching the key (Sequelize `findOne` result). -/
def updateFirst (k : StatKey) (c : Nat) (now : Nat) :
    List StatRow → List StatRow
  | [] => []
  | r :: rs =>
    if r.key == k then ⟨r.key, c, now⟩ :: rs
    else r :: updateFirst k c now rs

/-- The per-row body of the upsert loop: `findOne` on the `whereConditions`
key, then update-or-create. -/
def upsertOne (now : Nat) (statTime statType : String) (r : AggRow)
    (store : List StatRow) : List StatRow :=
  match store.find? (fun row => row.key == aggKey statTime statType r) with
  | some _ => updateFirst (aggKey statTime statType r) r.count now store
  | none => store ++ [⟨aggKey statTime statType r, r.count, now⟩]

/-- The upsert loop of `updateStatistics` over all aggregated rows, at a fixed
wall-clock instant `now` (the run's `new Date()` / `updatedAt` value). -/
def updateStatisticsRun (now : Nat) (statTime statType : String)
    (rows : List AggRow) (store : List StatRow) : List StatRow :=
  rows.foldl (fun st r => upsertOne now statTime statType r st) store

/-- Projection of a rollup store to its key and metric columns, discarding the
modification timestamp. -/
def dropUpdateTime (s : List StatRow) : List (StatKey × Nat) :=
  s.map fun r => (r.key, r.count)

/-! ## Time-bucket keys (`getTimeRange` in both statistics services) -/

/-- The four rollup granularities (`StatType` / `ApiStatType`). -/
inductive Granularity
  | hour
  | day
  | week
  | month
deriving DecidableEq

/-- The calendar components of the aggregation target time that the key
formats consume. -/
structure DateParts where
  year : Nat
  month : Nat
  day : Nat
  hour : Nat
deriving DecidableEq

/-- JS `String.prototype.padStart(w, '0')`, as used for the week number; also
the semantics of the zero-padded dayjs format tokens. -/
def padStartZeros (w : Nat) (s : String) : String :=
  if w ≤ s.length then s
  else String.mk (List.replicate (w - s.length) '0') ++ s

/-- dayjs token `YYYY`: the year, zero-padded to 4 digits. -/
def fmtYYYY (n : Nat) : String := padStartZeros 4 (Nat.repr n)

/-- dayjs tokens `MM` / `DD` / `HH`: the component, zero-padded to 2 digits. -/
def fmt2 (n : Nat) : String := padStartZeros 2 (Nat.repr n)

/-- The `statTime` bucket key computed by `getTimeRange` (identical in
`LogStatisticsService` and `ApiStatisticsService`):
hour → `format("YYYYMMDDHH")`, day → `format("YYYYMMDD")`,
week → `format("YYYY") + "W" + week().toString().padStart(2, "0")`,
month → `format("YYYYMM")`.  `weekOfYear` is the value of dayjs's `week()`
(weekOfYear plugin). -/
def statTimeKey (t : Granularity) (d : DateParts) (weekOfYear : Nat) : String :=
  match t with
  | .hour => fmtYYYY d.year ++ fmt2 d.month ++ fmt2 d.day ++ fmt2 d.hour
  | .day => fmtYYYY d.year ++ fmt2 d.month ++ fmt2 d.day
  | .week => fmtYYYY d.year ++ "W" ++ padStartZeros 2 (Nat.repr weekOfYear)
  | .month => fmtYYYY d.year ++ fmt2 d.month

/-! ## Projected rollup semantics

The branching and the key/metric columns of the upsert loop depend only on the
keys and counts of the store, never on `update_time`; the following projected
operations mirror `updateFirst` / `upsertOne` / `updateStatisticsRun` on the
`dropUpdateTime` view and are used to relate two runs of the same pass. -/

/-- `updateFirst` on the projected store. -/
def updateFirstP (k : StatKey) (c : Nat) :
    List (StatKey × Nat) → List (StatKey × Nat)
  | [] => []
  | r :: rs => if r.1 == k then (r.1, c) :: rs else r :: updateFirstP k c rs

/-- `upsertOne` on the projected store. -/
def upsertOneP (statTime statType : String) (r : AggRow)
    (s : List (StatKey × Nat)) : List (StatKey × Nat) :=
  match s.find? (fun row => row.1 == aggKey statTime statType r) with
  | some _ => updateFirstP (aggKey statTime statType r) r.count s
  | none => s ++ [(aggKey statTime statType r, r.count)]

/-- `updateStatisticsRun` on the projected store. -/
def runP (statTime statType : String) (rows : List AggRow)
    (s : List (StatKey × Nat)) : List (StatKey × Nat) :=
  rows.foldl (fun st r => upsertOneP statTime statType r st) s

/-! ## Concrete sample values used by witnesses and counterexamples -/

/-- A concrete queue entry. -/
def sampleEntry (m : String) (i : Nat) : CachedLog :=
  ⟨⟨"info", "application", m, "s", "", "", "", "", "", .obj [], "t"⟩, "c", i⟩

/-- A concrete aggregated row. -/
def sampleAggRow : AggRow := ⟨"application", "svc", "info", "", "", 5⟩

/-- A concrete request body with a non-empty message and no `level` field. -/
def sampleBodyNoLevel : RawBody :=
  ⟨some "hello", none, none, none, none, none, none, none, none, none, none⟩

/-! ## Theorems -/

/-- Claim C3: after every append operation on the overflow queue (single
record or batch), the stored entry count never exceeds `maxEntries = 10000`;
when the pre-trim count would exceed the bound (and the independent byte-size
bound does not also fire), exactly the oldest `count - maxEntries` entries by
index are removed, retaining the newest 10000 in their original order. -/
theorem claim_C3_append_count_bound (byteSize : List CachedLog → Nat)
    (existing incoming : List CachedLog) :
    (addToCache byteSize existing incoming).length ≤ maxCacheSize ∧
    (byteSize (countTrim (existing ++ incoming)) ≤ maxFileSize →
      maxCacheSize < (existing ++ incoming).length →
      addToCache byteSize existing incoming =
        (existing ++ incoming).drop
          ((existing ++ incoming).length - maxCacheSize)) := by
  constructor
  · unfold addToCache writeCache countTrim
    split <;> split <;> simp_all <;> omega
  · intro hsz hlen
    unfold addToCache writeCache
    rw [if_neg (by omega)]
    unfold countTrim
    rw [if_pos (by omega)]

/-- Witness for C3 at a concrete input: appending one record to a queue
already holding 10000 entries trims it back to the newest 10000. -/
theorem claim_C3_append_count_bound_witness :
    addToCache (fun _ => 0)
        (List.replicate 10000 (sampleEntry "m" 0)) [sampleEntry "m2" 1] =
      (List.replicate 10000 (sampleEntry "m" 0) ++ [sampleEntry "m2" 1]).drop
        1 := by
  have hlen :
      (List.replicate 10000 (sampleEntry "m" 0) ++
        [sampleEntry "m2" 1]).length = 10001 := by
    rw [List.length_append, List.length_replicate, List.length_singleton]
  have h := (claim_C3_append_count_bound (fun _ => 0)
    (List.replicate 10000 (sampleEntry "m" 0)) [sampleEntry "m2" 1]).2
    (Nat.zero_le _) (by rw [hlen]; unfold maxCacheSize; omega)
  rw [h, hlen]
  rfl

/-- Claim C4: invoking the reconciliation drain while another drain is in
progress returns processed 0, failed 0, no errors, and leaves the state (in
particular the persisted queue file) unchanged. -/
theorem claim_C4_single_flight (byteSize : List CachedLog → Nat)
    (parseJson : String → Option (List (String × String)))
    (ins : LogData → Except String Unit) (st : CacheState)
    (h : st.isProcessing = true) :
    processCachedLogs byteSize parseJson ins st = (⟨0, 0, []⟩, st) := by
  unfold processCachedLogs
  rw [if_pos h]

/-- Witness for C4 at a concrete input. -/
theorem claim_C4_single_flight_witness :
    processCachedLogs (fun _ => 0) (fun _ => none) (fun _ => .ok ())
        ⟨true, some []⟩ = (⟨0, 0, []⟩, ⟨true, some []⟩) :=
  claim_C4_single_flight (fun _ => 0) (fun _ => none) (fun _ => .ok ())
    ⟨true, some []⟩ rfl

/-- Claim C6: on every write of the overflow queue file, if the serialized
JSON of the full entry list exceeds `maxBytes` (50MB) then exactly the oldest
half of the entries by index is dropped and only the newest half is persisted;
otherwise the full list is persisted unchanged. -/
theorem claim_C6_byte_bound_halving (byteSize : List CachedLog → Nat)
    (logs : List CachedLog) :
    (maxFileSize < byteSize logs →
      writeCache byteSize logs = logs.drop (logs.length / 2)) ∧
    (byteSize logs ≤ maxFileSize → writeCache byteSize logs = logs) := by
  constructor
  · intro h
    unfold writeCache
    rw [if_pos (by omega)]
  · intro h
    unfold writeCache
    rw [if_neg (by omega)]

/-- Witness for C6 at a concrete input: an oversized two-entry file keeps only
the newest entry, and a small one is persisted unchanged. -/
theorem claim_C6_byte_bound_halving_witness :
    writeCache (fun _ => 60 * 1024 * 1024)
        [sampleEntry "m" 0, sampleEntry "m2" 1] = [sampleEntry "m2" 1] ∧
    writeCache (fun _ => 10) [] = ([] : List CachedLog) := by
  constructor
  · have h := (claim_C6_byte_bound_halving (fun _ => 60 * 1024 * 1024)
      [sampleEntry "m" 0, sampleEntry "m2" 1]).1
      (by unfold maxFileSize; omega)
    simpa using h
  · exact (claim_C6_byte_bound_halving (fun _ => 10) []).2
      (by unfold maxFileSize; omega)

/-- Claim C10: if the overflow queue file is missing or contains unparsable
JSON, every read operation treats it as an empty queue: the count operation
returns 0, the info operation reports count 0, and a drain over it returns
processed 0, failed 0, no errors (leaving the file as it was). -/
theorem claim_C10_unreadable_file_is_empty
    (parseFile : String → Option (List CachedLog))
    (byteSize : List CachedLog → Nat)
    (parseJson : String → Option (List (String × String)))
    (ins : LogData → Except String Unit) :
    getCacheCount parseFile none = 0 ∧
    getCacheInfoCount parseFile none = 0 ∧
    (∀ s, parseFile s = none →
      getCacheCount parseFile (some s) = 0 ∧
      getCacheInfoCount parseFile (some s) = 0) ∧
    processCachedLogs byteSize parseJson ins ⟨false, none⟩ =
      (⟨0, 0, []⟩, ⟨false, none⟩) := by
  refine ⟨rfl, rfl, ?_, ?_⟩
  · intro s hs
    constructor <;>
      simp [getCacheCount, getCacheInfoCount, readCacheFile, hs]
  · rfl

/-- Witness for C10 at a concrete input: a parser that rejects everything. -/
theorem claim_C10_unreadable_file_is_empty_witness :
    getCacheCount (fun _ => none) (some "not json") = 0 ∧
    processCachedLogs (fun _ => 0) (fun _ => none) (fun _ => .ok ())
        ⟨false, none⟩ = (⟨0, 0, []⟩, ⟨false, none⟩) := by
  refine ⟨((claim_C10_unreadable_file_is_empty (fun _ => none) (fun _ => 0)
    (fun _ => none) (fun _ => .ok ())).2.2.1 "not json" rfl).1, ?_⟩
  exact (claim_C10_unreadable_file_is_empty (fun _ => none) (fun _ => 0)
    (fun _ => none) (fun _ => .ok ())).2.2.2

/-- Helper: appending one entry within both bounds persists it unchanged. -/
theorem addToCache_singleton_no_trim (byteSize : List CachedLog → Nat)
    (queue : List CachedLog) (entry : CachedLog)
    (hq : queue.length + 1 ≤ maxCacheSize)
    (hsz : byteSize (queue ++ [entry]) ≤ maxFileSize) :
    addToCache byteSize queue [entry] = queue ++ [entry] := by
  have h1 : countTrim (queue ++ [entry]) = queue ++ [entry] := by
    unfold countTrim
    rw [if_neg]
    rw [List.length_append, List.length_singleton]
    omega
  unfold addToCache writeCache
  rw [h1, if_neg (by omega)]

/-- Claim C1: for every valid record reaching the write decision: if the
health monitor reports unhealthy, the record is enqueued and the caller gets
the cached response without any backend insert attempt; if healthy, a direct
insert is attempted, yielding the stored response on success; if the insert
throws, the record is enqueued and the cached response returned; and a failure
is returned exactly when the direct path did not succeed and the fallback
enqueue also failed.  (Queue-bound hypotheses keep the enqueued entry from
being trimmed, so the cached response can be stated exactly.) -/
theorem claim_C1_write_decision (byteSize : List CachedLog → Nat)
    (isHealthy insertOk cacheWriteFails : Bool)
    (queue : List CachedLog) (entry : CachedLog)
    (hq : queue.length + 1 ≤ maxCacheSize)
    (hsz : byteSize (queue ++ [entry]) ≤ maxFileSize) :
    (isHealthy = false → cacheWriteFails = false →
      createLogWrite byteSize isHealthy insertOk cacheWriteFails queue entry =
        ⟨.cached (queue.length + 1), queue ++ [entry], false⟩) ∧
    (isHealthy = true → insertOk = true →
      createLogWrite byteSize isHealthy insertOk cacheWriteFails queue entry =
        ⟨.stored, queue, true⟩) ∧
    (isHealthy = true → insertOk = false → cacheWriteFails = false →
      createLogWrite byteSize isHealthy insertOk cacheWriteFails queue entry =
        ⟨.cached (queue.length + 1), queue ++ [entry], true⟩) ∧
    ((createLogWrite byteSize isHealthy insertOk cacheWriteFails queue
        entry).resp = .storeFailed ↔
      cacheWriteFails = true ∧ ¬(isHealthy = true ∧ insertOk = true)) := by
  have hadd := addToCache_singleton_no_trim byteSize queue entry hq hsz
  have hlen : (queue ++ [entry]).length = queue.length + 1 := by
    rw [List.length_append, List.length_singleton]
  cases isHealthy <;> cases insertOk <;> cases cacheWriteFails <;>
    simp [createLogWrite, hadd, hlen]

/-- Witness for C1 at concrete inputs: unhealthy backend with a working queue
file caches the record. -/
theorem claim_C1_write_decision_witness :
    createLogWrite (fun _ => 0) false false false [] (sampleEntry "m" 0) =
      ⟨.cached 1, [sampleEntry "m" 0], false⟩ := by
  have h := (claim_C1_write_decision (fun _ => 0) false false false []
    (sampleEntry "m" 0) (by decide)
    (Nat.zero_le _)).1 rfl rfl
  simpa using h

/-- Counterexample for C7: the claim calls `level` (constrained to the four
known values) a required field whose absence is rejected before the health
check.  The code never rejects on `level`: a body with a non-empty message and
no `level` field is accepted, coerced to level `"info"`, and (healthy backend,
working insert) written directly to the backend rather than rejected. -/
theorem claim_C7_counterexample :
    createLog (fun _ => 0) (fun _ => true) id "now" true true false
        (fun l => ⟨l, "t", 0⟩) [] sampleBodyNoLevel =
      .handled ⟨.stored, [], true⟩ ∧
    sampleBodyNoLevel.level = none ∧
    sampleBodyNoLevel.message = some "hello" := by
  refine ⟨?_, rfl, rfl⟩
  rfl

/-- Claim C7 (amended): only a missing or empty `message` (or an invalid
provided timestamp) causes the synchronous rejection before the health check
and write decision; a rejected record is never enqueued nor written — in
particular a record with an empty message never appears in queue or backend.
A missing `level` is not rejected: every accepted record carries a level from
the valid set, and an absent `level` is coerced to `"info"`. -/
theorem claim_C7_validation_amended (byteSize : List CachedLog → Nat)
    (isValidTs : String → Bool) (toCH : String → String) (nowTs : String)
    (isHealthy insertOk cacheWriteFails : Bool) (wrap : LogData → CachedLog)
    (queue : List CachedLog) (body : RawBody) :
    (orDefault body.message "" = "" →
      createLog byteSize isValidTs toCH nowTs isHealthy insertOk
        cacheWriteFails wrap queue body = .badRequest queue false) ∧
    (∀ log, buildLogData isValidTs toCH nowTs body = .accepted log →
      log.level ∈ validLevels ∧
      (body.level = none → log.level = "info")) := by
  constructor
  · intro h
    unfold createLog buildLogData
    rw [if_pos (by simp [h])]
  · intro log hacc
    unfold buildLogData at hacc
    by_cases hmsg : orDefault body.message "" == ""
    · rw [if_pos hmsg] at hacc
      cases hacc
    · rw [if_neg hmsg] at hacc
      by_cases hts :
          (orDefault body.timestamp "" != "") = true ∧
          (!isValidTs (orDefault body.timestamp "")) = true
      · rw [if_pos (by simp [hts.1, hts.2])] at hacc
        cases hacc
      · rw [if_neg (by simpa [Bool.and_eq_true] using hts)] at hacc
        injection hacc with hlog
        subst hlog
        constructor
        · by_cases hlv :
              validLevels.contains (orDefault body.level "info") = true
          · simp only [hlv, if_true]
            simpa [List.contains, List.elem_iff] using hlv
          · simp only [hlv, if_false]
            simp [validLevels]
        · intro hnone
          simp [hnone, orDefault, validLevels]

/-- Witness for C7 (amended) at concrete inputs: an empty-message body is
rejected with the queue untouched and no insert attempted; the no-level body
is accepted with level `"info"`. -/
theorem claim_C7_validation_amended_witness :
    createLog (fun _ => 0) (fun _ => true) id "now" true true false
        (fun l => ⟨l, "t", 0⟩) [sampleEntry "m" 0]
        ⟨some "", none, none, none, none, none, none, none, none, none,
          none⟩ =
      .badRequest [sampleEntry "m" 0] false ∧
    ∀ log,
      buildLogData (fun _ => true) id "now" sampleBodyNoLevel =
        .accepted log → log.level = "info" := by
  constructor
  · exact (claim_C7_validation_amended (fun _ => 0) (fun _ => true) id "now"
      true true false (fun l => ⟨l, "t", 0⟩) [sampleEntry "m" 0]
      ⟨some "", none, none, none, none, none, none, none, none, none,
        none⟩).1 rfl
  · intro log hacc
    exact ((claim_C7_validation_amended (fun _ => 0) (fun _ => true) id "now"
      true true false (fun l => ⟨l, "t", 0⟩) [] sampleBodyNoLevel).2 log
      hacc).2 rfl

/-- Counterexample for C5: the claim says the recovered callback runs before
`isHealthy` is set to true.  On a concrete unhealthy→healthy transition the
source's trace starts with `isHealthy = true` (line `this.isHealthy = true`
precedes `await this.processCachedLogsOnReconnect()`), so not every
`setHealthy true` is preceded by the callback. -/
theorem claim_C5_counterexample :
    ¬ callbackBeforeHealthySet
        (checkDatabaseConnection true ⟨false, 3⟩).2.2 := by
  decide

/-- Claim C5 (amended): on every probe transitioning the monitor from
unhealthy to healthy, the recovered callback (which replays the queued
records) is invoked after `isHealthy` has been set to true (and the retry
counter reset); the flag is set once more after the callback returns.  The
probe reports healthy and the final state is healthy with retry count 0. -/
theorem claim_C5_recovery_callback_after_flag (st : HealthState)
    (h : st.isHealthy = false) :
    (checkDatabaseConnection true st).2.2 =
      [.setHealthy true, .resetRetryCount, .recoveredCallback,
        .setHealthy true] ∧
    (checkDatabaseConnection true st).2.2.head? = some (.setHealthy true) ∧
    HealthEvent.recoveredCallback ∈ (checkDatabaseConnection true st).2.2 ∧
    (checkDatabaseConnection true st).1 = true ∧
    (checkDatabaseConnection true st).2.1 = ⟨true, 0⟩ := by
  unfold checkDatabaseConnection
  rw [h]
  refine ⟨rfl, rfl, ?_, rfl, rfl⟩
  simp

/-- Witness for C5 (amended) at a concrete initial state. -/
theorem claim_C5_recovery_callback_after_flag_witness :
    (checkDatabaseConnection true ⟨false, 3⟩).2.2 =
      [.setHealthy true, .resetRetryCount, .recoveredCallback,
        .setHealthy true] :=
  (claim_C5_recovery_callback_after_flag ⟨false, 3⟩ rfl).1

/-- Helper: persisting an empty list never trims. -/
theorem writeCache_nil (byteSize : List CachedLog → Nat) :
    writeCache byteSize [] = [] := by
  unfold writeCache
  split <;> rfl

/-- Helper: a list within the byte bound is persisted unchanged. -/
theorem writeCache_le (byteSize : List CachedLog → Nat) (l : List CachedLog)
    (h : byteSize l ≤ maxFileSize) : writeCache byteSize l = l := by
  unfold writeCache
  rw [if_neg (by omega)]

/-- Helper: the drain loop's counters, error list and processed-set, expressed
through the per-record success predicate. -/
theorem drainLoop_spec (parseJson : String → Option (List (String × String)))
    (ins : LogData → Except String Unit) (q : List CachedLog) :
    (drainLoop parseJson ins q).processed =
      (q.filter (insSucceeds parseJson ins)).length ∧
    (drainLoop parseJson ins q).failed =
      (q.filter fun e => ! insSucceeds parseJson ins e).length ∧
    (drainLoop parseJson ins q).errors.length =
      (drainLoop parseJson ins q).failed ∧
    (drainLoop parseJson ins q).processedLogs =
      q.filter (insSucceeds parseJson ins) := by
  induction q with
  | nil => simp [drainLoop]
  | cons e rest ih =>
    cases h : ins (stripCacheFields parseJson e) with
    | ok v =>
      have hs : insSucceeds parseJson ins e = true := by
        simp [insSucceeds, h]
      simp [drainLoop, h, hs, List.filter_cons, ih.1, ih.2.1, ih.2.2.1,
        ih.2.2.2]
    | error err =>
      have hs : insSucceeds parseJson ins e = false := by
        simp [insSucceeds, h]
      simp [drainLoop, h, hs, List.filter_cons, ih.1, ih.2.1, ih.2.2.1,
        ih.2.2.2]

/-- Helper: a filter and its complement partition the length. -/
theorem length_filter_add_length_filter_not {α : Type} (p : α → Bool)
    (l : List α) :
    (l.filter p).length + (l.filter fun x => ! p x).length = l.length := by
  induction l with
  | nil => rfl
  | cons a l ih =>
    cases h : p a <;> simp [List.filter_cons, h] <;> omega

/-- Helper: when cache ids are pairwise distinct, membership of an entry's id
in the successful set is exactly the success predicate. -/
theorem filter_any_id (q : List CachedLog) (f : CachedLog → Bool)
    (hids : (q.map (fun e => e.cache_id)).Nodup) (e : CachedLog)
    (he : e ∈ q) :
    ((q.filter f).any fun p => p.cache_id == e.cache_id) = f e := by
  cases hfe : f e with
  | true =>
    simp only [List.any_eq_true]
    exact ⟨e, List.mem_filter.mpr ⟨he, hfe⟩, by simp⟩
  | false =>
    rw [List.any_eq_false]
    intro x hx hbeq
    have hx' := List.mem_filter.mp hx
    have hid : x.cache_id = e.cache_id := by
      simpa using hbeq
    have hxe : x = e :=
      List.inj_on_of_nodup_map hids hx'.1 he hid
    rw [hxe] at hx'
    rw [hx'.2] at hfe
    cases hfe

/-- Helper: with distinct cache ids the retained remainder of a drain is the
set of failing entries, in original order. -/
theorem drain_remaining_eq
    (parseJson : String → Option (List (String × String)))
    (ins : LogData → Except String Unit) (q : List CachedLog)
    (hids : (q.map (fun e => e.cache_id)).Nodup) :
    (q.filter fun e =>
      ! (q.filter (insSucceeds parseJson ins)).any fun p =>
          p.cache_id == e.cache_id) =
    q.filter fun e => ! insSucceeds parseJson ins e := by
  apply List.filter_congr
  intro e he
  rw [filter_any_id q (insSucceeds parseJson ins) hids e he]

/-- Claim C2: a reconciliation drain over a queue whose entries have distinct
cache ids, with a per-record write succeeding on a subset and throwing on the
rest, reports processed = number of successes and failed = number of failures
(= n - processed), collects one error string per failure, leaves the persisted
queue holding exactly the failing records (in order, assuming the remainder is
within the byte bound), and explicitly clears the file when nothing failed. -/
theorem claim_C2_drain_partial_failure (byteSize : List CachedLog → Nat)
    (parseJson : String → Option (List (String × String)))
    (ins : LogData → Except String Unit) (q : List CachedLog)
    (hids : (q.map (fun e => e.cache_id)).Nodup)
    (hsz : byteSize (q.filter fun e => ! insSucceeds parseJson ins e) ≤
      maxFileSize) :
    (processCachedLogs byteSize parseJson ins ⟨false, some q⟩).1.processed =
      (q.filter (insSucceeds parseJson ins)).length ∧
    (processCachedLogs byteSize parseJson ins ⟨false, some q⟩).1.failed =
      (q.filter fun e => ! insSucceeds parseJson ins e).length ∧
    (processCachedLogs byteSize parseJson ins ⟨false, some q⟩).1.processed +
      (processCachedLogs byteSize parseJson ins ⟨false, some q⟩).1.failed =
      q.length ∧
    (processCachedLogs byteSize parseJson ins
        ⟨false, some q⟩).1.errors.length =
      (processCachedLogs byteSize parseJson ins ⟨false, some q⟩).1.failed ∧
    (processCachedLogs byteSize parseJson ins ⟨false, some q⟩).2 =
      ⟨false, some (q.filter fun e => ! insSucceeds parseJson ins e)⟩ ∧
    ((processCachedLogs byteSize parseJson ins ⟨false, some q⟩).1.failed =
        0 →
      (processCachedLogs byteSize parseJson ins ⟨false, some q⟩).2.file =
        some []) := by
  obtain ⟨hp, hf, herr, hpl⟩ := drainLoop_spec parseJson ins q
  cases q with
  | nil => simp [processCachedLogs, readCache]
  | cons a l =>
    have hrem := drain_remaining_eq parseJson ins (a :: l) hids
    simp only [processCachedLogs, readCache, Option.getD_some,
      List.isEmpty_cons, Bool.false_eq_true, if_false]
    rw [hpl, hrem, writeCache_le byteSize _ hsz]
    refine ⟨hp, hf, ?_, herr, ?_, ?_⟩
    · rw [hp, hf]
      exact length_filter_add_length_filter_not _ _
    · by_cases hz : (drainLoop parseJson ins (a :: l)).failed = 0
      · have hzf :
            ((a :: l).filter fun e => ! insSucceeds parseJson ins e) = [] :=
          List.eq_nil_of_length_eq_zero (by rw [← hf]; exact hz)
        simp [hz, hzf, writeCache_nil]
      · simp [hz]
    · intro hz
      have hzf :
          ((a :: l).filter fun e => ! insSucceeds parseJson ins e) = [] :=
        List.eq_nil_of_length_eq_zero (by rw [← hf]; exact hz)
      simp [hz, hzf, writeCache_nil]

/-- Witness for C2 at a concrete input: a two-entry queue where the first
record inserts and the second throws keeps exactly the second entry. -/
theorem claim_C2_drain_partial_failure_witness :
    (processCachedLogs (fun _ => 0) (fun _ => none)
        (fun log => if log.message == "ok" then .ok () else .error "boom")
        ⟨false, some [sampleEntry "ok" 0, sampleEntry "bad" 1]⟩).2 =
      ⟨false, some [sampleEntry "bad" 1]⟩ := by
  have h := (claim_C2_drain_partial_failure (fun _ => 0) (fun _ => none)
    (fun log => if log.message == "ok" then .ok () else .error "boom")
    [sampleEntry "ok" 0, sampleEntry "bad" 1] (by decide)
    (Nat.zero_le _)).2.2.2.2.1
  rw [h]
  rfl

/-- Helper: unfolding `updateFirstP` at a matching head. -/
theorem updateFirstP_cons_pos (k : StatKey) (c : Nat) (r : StatKey × Nat)
    (rs : List (StatKey × Nat)) (h : r.1 = k) :
    updateFirstP k c (r :: rs) = (r.1, c) :: rs := by
  simp [updateFirstP, h]

/-- Helper: unfolding `updateFirstP` at a non-matching head. -/
theorem updateFirstP_cons_neg (k : StatKey) (c : Nat) (r : StatKey × Nat)
    (rs : List (StatKey × Nat)) (h : ¬r.1 = k) :
    updateFirstP k c (r :: rs) = r :: updateFirstP k c rs := by
  simp [updateFirstP, h]

/-- Helper: unfolding `upsertOneP` when the key is present. -/
theorem upsertOneP_of_found (statTime statType : String) (r : AggRow)
    (s : List (StatKey × Nat)) (x : StatKey × Nat)
    (hfind : s.find? (fun row => row.1 == aggKey statTime statType r) =
      some x) :
    upsertOneP statTime statType r s =
      updateFirstP (aggKey statTime statType r) r.count s := by
  unfold upsertOneP
  rw [hfind]

/-- Helper: unfolding `upsertOneP` when the key is absent. -/
theorem upsertOneP_of_none (statTime statType : String) (r : AggRow)
    (s : List (StatKey × Nat))
    (hfind : s.find? (fun row => row.1 == aggKey statTime statType r) =
      none) :
    upsertOneP statTime statType r s =
      s ++ [(aggKey statTime statType r, r.count)] := by
  unfold upsertOneP
  rw [hfind]

/-- Helper: the per-key lookup ignores a projected update at another key. -/
theorem find?_updateFirstP_ne (k k' : StatKey) (c : Nat)
    (h : k ≠ k') (s : List (StatKey × Nat)) :
    (updateFirstP k' c s).find? (fun p => p.1 == k) =
      s.find? (fun p => p.1 == k) := by
  induction s with
  | nil => rfl
  | cons r rs ih =>
    by_cases hr : r.1 = k'
    · rw [updateFirstP_cons_pos k' c r rs hr,
        List.find?_cons_of_neg _ (by simp [hr, Ne.symm h]),
        List.find?_cons_of_neg _ (by simp [hr, Ne.symm h])]
    · rw [updateFirstP_cons_neg k' c r rs hr]
      by_cases hk : r.1 = k
      · rw [List.find?_cons_of_pos _ (by simp [hk]),
          List.find?_cons_of_pos _ (by simp [hk])]
      · rw [List.find?_cons_of_neg _ (by simp [hk]),
          List.find?_cons_of_neg _ (by simp [hk]), ih]

/-- Helper: the per-key lookup ignores an upsert at another key. -/
theorem find?_upsertOneP_ne (statTime statType : String) (r : AggRow)
    (k : StatKey) (h : k ≠ aggKey statTime statType r)
    (s : List (StatKey × Nat)) :
    (upsertOneP statTime statType r s).find? (fun p => p.1 == k) =
      s.find? (fun p => p.1 == k) := by
  cases hfind : s.find? (fun row => row.1 == aggKey statTime statType r) with
  | some x =>
    rw [upsertOneP_of_found statTime statType r s x hfind]
    exact find?_updateFirstP_ne k _ r.count h s
  | none =>
    rw [upsertOneP_of_none statTime statType r s hfind, List.find?_append]
    have hone :
        ([(aggKey statTime statType r, r.count)].find?
          (fun p => p.1 == k)) = none := by
      rw [List.find?_cons_of_neg _ (by simp [Ne.symm h])]
      rfl
    rw [hone, Option.or_none]

/-- Helper: the per-key lookup ignores a whole pass over rows at other keys. -/
theorem find?_runP_ne (statTime statType : String) (rows : List AggRow)
    (k : StatKey) (h : ∀ r ∈ rows, aggKey statTime statType r ≠ k)
    (s : List (StatKey × Nat)) :
    (runP statTime statType rows s).find? (fun p => p.1 == k) =
      s.find? (fun p => p.1 == k) := by
  induction rows generalizing s with
  | nil => rfl
  | cons r rows ih =>
    show (runP statTime statType rows
        (upsertOneP statTime statType r s)).find? (fun p => p.1 == k) = _
    rw [ih (fun r' hr' => h r' (List.mem_cons_of_mem r hr')),
      find?_upsertOneP_ne statTime statType r k
        (Ne.symm (h r (List.mem_cons_self r rows))) s]

/-- Helper: after a projected update at `k`, the lookup at `k` sees the new
count. -/
theorem find?_updateFirstP_self (k : StatKey) (c : Nat)
    (s : List (StatKey × Nat))
    (h : (s.find? (fun p => p.1 == k)).isSome) :
    (updateFirstP k c s).find? (fun p => p.1 == k) = some (k, c) := by
  induction s with
  | nil => simp at h
  | cons r rs ih =>
    by_cases hr : r.1 = k
    · rw [updateFirstP_cons_pos k c r rs hr,
        List.find?_cons_of_pos _ (by simp [hr]), hr]
    · rw [updateFirstP_cons_neg k c r rs hr,
        List.find?_cons_of_neg _ (by simp [hr])]
      apply ih
      rw [List.find?_cons_of_neg _ (by simp [hr])] at h
      exact h

/-- Helper: after an upsert of a row, the lookup at its key sees its count. -/
theorem find?_upsertOneP_self (statTime statType : String) (r : AggRow)
    (s : List (StatKey × Nat)) :
    (upsertOneP statTime statType r s).find?
        (fun p => p.1 == aggKey statTime statType r) =
      some (aggKey statTime statType r, r.count) := by
  cases hfind : s.find? (fun row => row.1 == aggKey statTime statType r) with
  | some x =>
    rw [upsertOneP_of_found statTime statType r s x hfind]
    exact find?_updateFirstP_self _ r.count s (by rw [hfind]; rfl)
  | none =>
    rw [upsertOneP_of_none statTime statType r s hfind, List.find?_append,
      hfind, Option.none_or, List.find?_cons_of_pos _ (by simp)]

/-- Helper: a projected update writing back the value the lookup already sees
is the identity. -/
theorem updateFirstP_noop (k : StatKey) (c : Nat) (s : List (StatKey × Nat))
    (h : s.find? (fun p => p.1 == k) = some (k, c)) :
    updateFirstP k c s = s := by
  induction s with
  | nil => rfl
  | cons r rs ih =>
    by_cases hr : r.1 = k
    · rw [List.find?_cons_of_pos _ (by simp [hr])] at h
      injection h with h
      rw [updateFirstP_cons_pos k c r rs hr, h]
    · rw [List.find?_cons_of_neg _ (by simp [hr])] at h
      rw [updateFirstP_cons_neg k c r rs hr, ih h]

/-- Helper: an upsert whose key already holds its count is the identity. -/
theorem upsertOneP_noop (statTime statType : String) (r : AggRow)
    (s : List (StatKey × Nat))
    (h : s.find? (fun p => p.1 == aggKey statTime statType r) =
      some (aggKey statTime statType r, r.count)) :
    upsertOneP statTime statType r s = s := by
  rw [upsertOneP_of_found statTime statType r s _ h]
  exact updateFirstP_noop _ r.count s h

/-- Helper: a projected pass over rows with pairwise-distinct keys is
idempotent. -/
theorem runP_idem (statTime statType : String) (rows : List AggRow)
    (hkeys : (rows.map (aggKey statTime statType)).Nodup)
    (s : List (StatKey × Nat)) :
    runP statTime statType rows (runP statTime statType rows s) =
      runP statTime statType rows s := by
  induction rows generalizing s with
  | nil => rfl
  | cons r rows ih =>
    rw [List.map_cons, List.nodup_cons] at hkeys
    obtain ⟨hni, hnd⟩ := hkeys
    have hothers : ∀ r' ∈ rows,
        aggKey statTime statType r' ≠ aggKey statTime statType r := by
      intro r' hr' heq
      exact hni (heq ▸ List.mem_map_of_mem _ hr')
    show runP statTime statType rows
        (upsertOneP statTime statType r
          (runP statTime statType rows
            (upsertOneP statTime statType r s))) = _
    have hfind := find?_upsertOneP_self statTime statType r s
    have hfind2 :
        (runP statTime statType rows
            (upsertOneP statTime statType r s)).find?
          (fun p => p.1 == aggKey statTime statType r) =
        some (aggKey statTime statType r, r.count) := by
      rw [find?_runP_ne statTime statType rows _ hothers, hfind]
    rw [upsertOneP_noop statTime statType r _ hfind2, ih hnd]
    rfl

/-- Helper: `dropUpdateTime` on a cons cell. -/
theorem dropUpdateTime_cons (r : StatRow) (rs : List StatRow) :
    dropUpdateTime (r :: rs) = (r.key, r.count) :: dropUpdateTime rs := rfl

/-- Helper: unfolding `updateFirst` at a matching head. -/
theorem updateFirst_cons_pos (k : StatKey) (c now : Nat) (r : StatRow)
    (rs : List StatRow) (h : r.key = k) :
    updateFirst k c now (r :: rs) = ⟨r.key, c, now⟩ :: rs := by
  simp [updateFirst, h]

/-- Helper: unfolding `updateFirst` at a non-matching head. -/
theorem updateFirst_cons_neg (k : StatKey) (c now : Nat) (r : StatRow)
    (rs : List StatRow) (h : ¬r.key = k) :
    updateFirst k c now (r :: rs) = r :: updateFirst k c now rs := by
  simp [updateFirst, h]

/-- Helper: projecting away `update_time` commutes with `updateFirst`. -/
theorem dropUpdateTime_updateFirst (k : StatKey) (c now : Nat)
    (s : List StatRow) :
    dropUpdateTime (updateFirst k c now s) =
      updateFirstP k c (dropUpdateTime s) := by
  induction s with
  | nil => rfl
  | cons r rs ih =>
    by_cases hr : r.key = k
    · rw [updateFirst_cons_pos k c now r rs hr, dropUpdateTime_cons,
        dropUpdateTime_cons, updateFirstP_cons_pos k c _ _ hr]
    · rw [updateFirst_cons_neg k c now r rs hr, dropUpdateTime_cons,
        dropUpdateTime_cons, updateFirstP_cons_neg k c _ _ hr, ih]

/-- Helper: the projected lookup agrees with the full lookup. -/
theorem find?_dropUpdateTime (k : StatKey) (s : List StatRow) :
    (dropUpdateTime s).find? (fun p => p.1 == k) =
      (s.find? (fun r => r.key == k)).map (fun r => (r.key, r.count)) := by
  induction s with
  | nil => rfl
  | cons r rs ih =>
    by_cases hr : r.key = k
    · rw [dropUpdateTime_cons, List.find?_cons_of_pos _ (by simp [hr]),
        List.find?_cons_of_pos _ (by simp [hr])]
      rfl
    · rw [dropUpdateTime_cons, List.find?_cons_of_neg _ (by simp [hr]),
        List.find?_cons_of_neg _ (by simp [hr]), ih]

/-- Helper: unfolding `upsertOne` when the key is present. -/
theorem upsertOne_of_found (now : Nat) (statTime statType : String)
    (r : AggRow) (s : List StatRow) (x : StatRow)
    (hfind : s.find? (fun row => row.key == aggKey statTime statType r) =
      some x) :
    upsertOne now statTime statType r s =
      updateFirst (aggKey statTime statType r) r.count now s := by
  unfold upsertOne
  rw [hfind]

/-- Helper: unfolding `upsertOne` when the key is absent. -/
theorem upsertOne_of_none (now : Nat) (statTime statType : String)
    (r : AggRow) (s : List StatRow)
    (hfind : s.find? (fun row => row.key == aggKey statTime statType r) =
      none) :
    upsertOne now statTime statType r s =
      s ++ [⟨aggKey statTime statType r, r.count, now⟩] := by
  unfold upsertOne
  rw [hfind]

/-- Helper: projecting away `update_time` commutes with `upsertOne`. -/
theorem dropUpdateTime_upsertOne (now : Nat) (statTime statType : String)
    (r : AggRow) (s : List StatRow) :
    dropUpdateTime (upsertOne now statTime statType r s) =
      upsertOneP statTime statType r (dropUpdateTime s) := by
  cases hfind : s.find? (fun row => row.key == aggKey statTime statType r) with
  | some x =>
    rw [upsertOne_of_found now statTime statType r s x hfind,
      dropUpdateTime_updateFirst,
      upsertOneP_of_found statTime statType r (dropUpdateTime s)
        (x.key, x.count) (by rw [find?_dropUpdateTime, hfind]; rfl)]
  | none =>
    rw [upsertOne_of_none now statTime statType r s hfind,
      upsertOneP_of_none statTime statType r (dropUpdateTime s)
        (by rw [find?_dropUpdateTime, hfind]; rfl)]
    unfold dropUpdateTime
    rw [List.map_append]
    rfl

/-- Helper: projecting away `update_time` commutes with a whole pass. -/
theorem dropUpdateTime_run (now : Nat) (statTime statType : String)
    (rows : List AggRow) (s : List StatRow) :
    dropUpdateTime (updateStatisticsRun now statTime statType rows s) =
      runP statTime statType rows (dropUpdateTime s) := by
  induction rows generalizing s with
  | nil => rfl
  | cons r rows ih =>
    show dropUpdateTime (updateStatisticsRun now statTime statType rows
        (upsertOne now statTime statType r s)) = _
    rw [ih, dropUpdateTime_upsertOne]
    rfl

/-- Counterexample for C8: the rows produced by two runs of the same pass over
unchanged raw data are not byte-identical, because `update_time` (the
Sequelize `updatedAt` column) is refreshed by the second run's update.
Concretely, one aggregated row upserted at `update_time` 0 and re-upserted at
`update_time` 1 yields a different stored row. -/
theorem claim_C8_counterexample :
    updateStatisticsRun 1 "2025070415" "hour" [sampleAggRow]
        (updateStatisticsRun 0 "2025070415" "hour" [sampleAggRow] []) ≠
      updateStatisticsRun 0 "2025070415" "hour" [sampleAggRow] [] := by
  decide

/-- Claim C8 (amended): running the aggregation pass a second time over the
same aggregated rows (pairwise-distinct group keys, as produced by `GROUP
BY`) replaces each row's count with the freshly recomputed value instead of
adding to it: every key and metric column is identical to the first run's
result — only the `update_time` modification timestamp differs — so no metric
is double-counted. -/
theorem claim_C8_recompute_replaces (now1 now2 : Nat)
    (statTime statType : String) (rows : List AggRow) (store : List StatRow)
    (hkeys : (rows.map (aggKey statTime statType)).Nodup) :
    dropUpdateTime
        (updateStatisticsRun now2 statTime statType rows
          (updateStatisticsRun now1 statTime statType rows store)) =
      dropUpdateTime (updateStatisticsRun now1 statTime statType rows
        store) := by
  rw [dropUpdateTime_run, dropUpdateTime_run]
  exact runP_idem statTime statType rows hkeys (dropUpdateTime store)

/-- Witness for C8 (amended) at concrete inputs. -/
theorem claim_C8_recompute_replaces_witness :
    dropUpdateTime
        (updateStatisticsRun 1 "2025070415" "hour" [sampleAggRow]
          (updateStatisticsRun 0 "2025070415" "hour" [sampleAggRow] [])) =
      dropUpdateTime
        (updateStatisticsRun 0 "2025070415" "hour" [sampleAggRow] []) :=
  claim_C8_recompute_replaces 0 1 "2025070415" "hour" [sampleAggRow] []
    (by decide)

/-- Helper: `Nat.digitChar` of a value below 10 is a decimal digit. -/
theorem digitChar_isDigit : ∀ m, m < 10 → (Nat.digitChar m).isDigit = true := by
  decide

/-- Helper: `Nat.toDigitsCore` in base 10 only prepends decimal digits. -/
theorem toDigitsCore_all_digits (f : Nat) : ∀ (n : Nat) (l : List Char),
    (∀ c ∈ l, c.isDigit = true) →
    ∀ c ∈ Nat.toDigitsCore 10 f n l, c.isDigit = true := by
  induction f with
  | zero => intro n l hl c hc; exact hl c hc
  | succ f ih =>
    intro n l hl c hc
    rw [show Nat.toDigitsCore 10 (f + 1) n l =
        if n / 10 = 0 then Nat.digitChar (n % 10) :: l
        else Nat.toDigitsCore 10 f (n / 10) (Nat.digitChar (n % 10) :: l)
      from rfl] at hc
    have hl' : ∀ c ∈ Nat.digitChar (n % 10) :: l, c.isDigit = true := by
      intro c hc
      rcases List.mem_cons.mp hc with h | h
      · rw [h]
        exact digitChar_isDigit _ (Nat.mod_lt _ (by omega))
      · exact hl c h
    by_cases h0 : n / 10 = 0
    · rw [if_pos h0] at hc
      exact hl' c hc
    · rw [if_neg h0] at hc
      exact ih (n / 10) _ hl' c hc

/-- Helper: every character of `Nat.repr` is a decimal digit. -/
theorem repr_all_digits (n : Nat) :
    ∀ c ∈ (Nat.repr n).data, c.isDigit = true := by
  intro c hc
  exact toDigitsCore_all_digits (n + 1) n [] (by intro c h; cases h) c hc

/-- Helper: padding a short string to width `w` yields length exactly `w`. -/
theorem padStartZeros_length (w : Nat) (s : String) (h : s.length ≤ w) :
    (padStartZeros w s).length = w := by
  unfold padStartZeros
  by_cases hw : w ≤ s.length
  · rw [if_pos hw]
    omega
  · rw [if_neg hw, String.length_append]
    have hrep : (String.mk (List.replicate (w - s.length) '0')).length =
        w - s.length := by
      show (List.replicate (w - s.length) '0').length = w - s.length
      exact List.length_replicate _ _
    omega

/-- Helper: zero-padding preserves all-digits. -/
theorem padStartZeros_all_digits (w : Nat) (s : String)
    (h : ∀ c ∈ s.data, c.isDigit = true) :
    ∀ c ∈ (padStartZeros w s).data, c.isDigit = true := by
  unfold padStartZeros
  by_cases hw : w ≤ s.length
  · rw [if_pos hw]
    exact h
  · rw [if_neg hw]
    intro c hc
    rw [String.data_append] at hc
    rcases List.mem_append.mp hc with h1 | h1
    · have hc0 : c = '0' := List.eq_of_mem_replicate h1
      rw [hc0]
      rfl
    · exact h c h1

/-- Helper: all-digits is preserved by string append. -/
theorem append_all_digits (s t : String)
    (hs : ∀ c ∈ s.data, c.isDigit = true)
    (ht : ∀ c ∈ t.data, c.isDigit = true) :
    ∀ c ∈ (s ++ t).data, c.isDigit = true := by
  intro c hc
  rw [String.data_append] at hc
  rcases List.mem_append.mp hc with h | h
  · exact hs c h
  · exact ht c h

/-- Helper: the 2-digit format of a value below 100. -/
theorem fmt2_spec (n : Nat) (h : n < 100) :
    (fmt2 n).length = 2 ∧ ∀ c ∈ (fmt2 n).data, c.isDigit = true :=
  ⟨padStartZeros_length 2 _ (Nat.repr_length n 2 (by omega) (by norm_num
    [h])),
   padStartZeros_all_digits 2 _ (repr_all_digits n)⟩

/-- Helper: the 4-digit format of a value below 10000. -/
theorem fmtYYYY_spec (n : Nat) (h : n < 10000) :
    (fmtYYYY n).length = 4 ∧ ∀ c ∈ (fmtYYYY n).data, c.isDigit = true :=
  ⟨padStartZeros_length 4 _ (Nat.repr_length n 4 (by omega) (by norm_num
    [h])),
   padStartZeros_all_digits 4 _ (repr_all_digits n)⟩

/-- Claim C9: for every aggregation target time (a calendar date with year
below 10000) and granularity, the generated rollup time-bucket key matches
the granularity's format exactly: hour produces a 10-digit `YYYYMMDDHH`
string, day an 8-digit `YYYYMMDD` string, month a 6-digit `YYYYMM` string, and
week the 4-digit year, the literal `W`, and a 2-digit zero-padded week number
(dayjs `week()` values lie in 1..53). -/
theorem claim_C9_bucket_key_formats (d : DateParts) (w : Nat)
    (hy : d.year < 10000) (hm : d.month ≤ 12) (hd : d.day ≤ 31)
    (hh : d.hour ≤ 23) (hw1 : 1 ≤ w) (hw2 : w ≤ 53) :
    ((statTimeKey .hour d w).length = 10 ∧
      ∀ c ∈ (statTimeKey .hour d w).data, c.isDigit = true) ∧
    ((statTimeKey .day d w).length = 8 ∧
      ∀ c ∈ (statTimeKey .day d w).data, c.isDigit = true) ∧
    ((statTimeKey .month d w).length = 6 ∧
      ∀ c ∈ (statTimeKey .month d w).data, c.isDigit = true) ∧
    (statTimeKey .week d w =
        fmtYYYY d.year ++ "W" ++ padStartZeros 2 (Nat.repr w) ∧
      (statTimeKey .week d w).length = 7 ∧
      (fmtYYYY d.year).length = 4 ∧
      (∀ c ∈ (fmtYYYY d.year).data, c.isDigit = true) ∧
      (padStartZeros 2 (Nat.repr w)).length = 2 ∧
      ∀ c ∈ (padStartZeros 2 (Nat.repr w)).data, c.isDigit = true) := by
  obtain ⟨hylen, hydig⟩ := fmtYYYY_spec d.year hy
  obtain ⟨hmlen, hmdig⟩ := fmt2_spec d.month (by omega)
  obtain ⟨hdlen, hddig⟩ := fmt2_spec d.day (by omega)
  obtain ⟨hhlen, hhdig⟩ := fmt2_spec d.hour (by omega)
  obtain ⟨hwlen, hwdig⟩ := fmt2_spec w (by omega)
  refine ⟨⟨?_, ?_⟩, ⟨?_, ?_⟩, ⟨?_, ?_⟩, rfl, ?_, hylen, hydig, hwlen, hwdig⟩
  · show (fmtYYYY d.year ++ fmt2 d.month ++ fmt2 d.day ++
      fmt2 d.hour).length = 10
    rw [String.length_append, String.length_append, String.length_append,
      hylen, hmlen, hdlen, hhlen]
  · exact append_all_digits _ _
      (append_all_digits _ _ (append_all_digits _ _ hydig hmdig) hddig) hhdig
  · show (fmtYYYY d.year ++ fmt2 d.month ++ fmt2 d.day).length = 8
    rw [String.length_append, String.length_append, hylen, hmlen, hdlen]
  · exact append_all_digits _ _ (append_all_digits _ _ hydig hmdig) hddig
  · show (fmtYYYY d.year ++ fmt2 d.month).length = 6
    rw [String.length_append, hylen, hmlen]
  · exact append_all_digits _ _ hydig hmdig
  · show (fmtYYYY d.year ++ "W" ++ padStartZeros 2 (Nat.repr w)).length = 7
    rw [String.length_append, String.length_append, hylen,
      show padStartZeros 2 (Nat.repr w) = fmt2 w from rfl, hwlen]
    rfl

/-- Witness for C9 at a concrete time (2025-07-04 15:00, ISO week 27): the
keys match the spec's examples, and the hour key is 10 digits long. -/
theorem claim_C9_bucket_key_formats_witness :
    statTimeKey .hour ⟨2025, 7, 4, 15⟩ 27 = "2025070415" ∧
    statTimeKey .day ⟨2025, 7, 4, 15⟩ 27 = "20250704" ∧
    statTimeKey .week ⟨2025, 7, 4, 15⟩ 27 = "2025W27" ∧
    statTimeKey .month ⟨2025, 7, 4, 15⟩ 27 = "202507" ∧
    (statTimeKey .hour ⟨2025, 7, 4, 15⟩ 27).length = 10 := by
  refine ⟨by decide, by decide, by decide, by decide, ?_⟩
  exact (claim_C9_bucket_key_formats ⟨2025, 7, 4, 15⟩ 27 (by decide)
    (by decide) (by decide) (by decide) (by decide) (by decide)).1.1

end LogServer
